import Mathlib

/-!
Shallow embedding of the geometry core of the repository (source file
src/src/display/Graphics.js): the command log, the path-building API,
the single-pass bounds analyzer, and the shape-script decoder.
JS numbers are modelled as real numbers.  The collaborator classes
Rectangle, MathEx, Circle and the style constants are not under src/,
so they are modelled from the spec where indicated.
-/

noncomputable section

/-- Axis-aligned rectangle value type with fields x, y, width, height. -/
structure Rectangle where
  x : ℝ
  y : ℝ
  width : ℝ
  height : ℝ

/-- Modelled from the spec: Rectangle.union (the Rectangle source is not
under src/).  Produces the smallest rectangle containing both; union with
an empty rectangle is the identity, the self-empty check coming first. -/
def Rectangle.union (a b : Rectangle) : Rectangle :=
  if a.width = 0 ∨ a.height = 0 then b
  else if b.width = 0 ∨ b.height = 0 then a
  else
    let nx := min a.x b.x
    let ny := min a.y b.y
    Rectangle.mk nx ny (max (a.x + a.width) (b.x + b.width) - nx)
      (max (a.y + a.height) (b.y + b.height) - ny)

/-- Modelled from the spec: Rectangle.inflate (the Rectangle source is not
under src/).  Expands symmetrically: x -= dx, width += 2 dx, y -= dy,
height += 2 dy. -/
def Rectangle.inflate (r : Rectangle) (dx dy : ℝ) : Rectangle :=
  Rectangle.mk (r.x - dx) (r.y - dy) (r.width + 2 * dx) (r.height + 2 * dy)

/-- Entries at even positions of a flat (x, y, x, y, ...) pair list. -/
def xsOfPairs : List ℝ → List ℝ
  | [] => []
  | [a] => [a]
  | a :: _ :: rest => a :: xsOfPairs rest

/-- Entries at odd positions of a flat (x, y, x, y, ...) pair list. -/
def ysOfPairs : List ℝ → List ℝ
  | [] => []
  | [_] => []
  | _ :: b :: rest => b :: ysOfPairs rest

/-- Modelled from the spec: Rectangle.fromPointsXY (the Rectangle source is
not under src/).  Min/max sweep over a flat sequence of (x, y) pairs; on an
empty sequence (never reached by the claims) it yields the zero rectangle. -/
def Rectangle.fromPointsXY (pts : List ℝ) : Rectangle :=
  match xsOfPairs pts, ysOfPairs pts with
  | x0 :: xr, y0 :: yr =>
    let minX := xr.foldl min x0
    let maxX := xr.foldl max x0
    let minY := yr.foldl min y0
    let maxY := yr.foldl max y0
    Rectangle.mk minX minY (maxX - minX) (maxY - minY)
  | _, _ => Rectangle.mk 0 0 0 0

/-- Modelled from the spec: the miter joint-style string constant. -/
def JointStyle.MITER : String := "miter"

/-- Modelled from the spec: the round joint-style string constant. -/
def JointStyle.ROUND : String := "round"

/-- Modelled from the spec: the round caps-style string constant. -/
def CapsStyle.ROUND : String := "round"

/-- Modelled from the spec: MathEx.PI2, the full-turn angle 2 pi (the
MathEx source is not under src/). -/
def MathEx.PI2 : ℝ := 2 * Real.pi

/-- Truncation toward zero, as used by the JS remainder operator. -/
def jsTrunc (a : ℝ) : ℤ := if 0 ≤ a then ⌊a⌋ else ⌈a⌉

/-- The JS remainder operator a % b on finite doubles: the result has the
sign of the dividend and is a - b * trunc(a / b).  The divisor is never
zero at the one call site (it is 2 pi). -/
def jsMod (a b : ℝ) : ℝ := a - b * (jsTrunc (a / b) : ℝ)

/-- Closed form of the loop `while (end < start) end += PI2` in arc: the
smallest e + k * 2 pi (k a natural number) that is at least start; when
e >= start already, zero iterations run and e is returned unchanged. -/
def normalizeSweepEnd (start e : ℝ) : ℝ :=
  if e < start then e + MathEx.PI2 * (⌈(start - e) / MathEx.PI2⌉ : ℝ) else e

/-- Modelled from the spec: Circle.getCircumferencePoint (the Circle source
is not under src/), the standard circumference-point formula
(x + r cos t, y + r sin t). -/
def Circle.getCircumferencePoint (x y r t : ℝ) : ℝ × ℝ :=
  (x + r * Real.cos t, y + r * Real.sin t)

/-- The closed enumeration of command types (GraphicsCommandType). -/
inductive GraphicsCommandType
  | BEGIN_PATH
  | CLOSE_PATH
  | MOVE_TO
  | LINE_TO
  | ARC
  | RECT
  | BEZIER_CURVE_TO
  | LINE_STYLE
  | FILL_STYLE
  | BOUNDS
  | FILL
  | STROKE
deriving DecidableEq

/-- One argument of a command: JS passes numbers, style strings, and the
anticlockwise boolean through the variadic __pushCommand. -/
inductive CmdArg
  | num (value : ℝ)
  | str (value : String)
  | bool (value : Bool)

/-- Numeric view of a command argument (non-numbers never occur where it
is used). -/
def CmdArg.toNum : CmdArg → ℝ
  | .num v => v
  | _ => 0

/-- Immutable command record: a type and its ordered argument list. -/
structure GraphicsCommand where
  type : GraphicsCommandType
  data : List CmdArg

/-- Modelled from the spec: GraphicsCommand.getNumber (the GraphicsCommand
source is not under src/), the i-th argument read as a number. -/
def GraphicsCommand.getNumber (c : GraphicsCommand) (i : ℕ) : ℝ :=
  match c.data.get? i with
  | some (.num v) => v
  | _ => 0

/-- Modelled from the spec: GraphicsCommand.getString (the GraphicsCommand
source is not under src/), the i-th argument read as a string. -/
def GraphicsCommand.getString (c : GraphicsCommand) (i : ℕ) : String :=
  match c.data.get? i with
  | some (.str v) => v
  | _ => ""

/-- The per-path accumulator of the bounds pass (class GraphicsPath). -/
structure GraphicsPath where
  bounds : Option Rectangle
  points : List ℝ
  maxLineWidth : ℝ
  lastLineWidth : ℝ
  lineMult : ℝ

/-- A freshly constructed GraphicsPath: no bounds, no points, widths 0,
line multiplier 0.5. -/
def GraphicsPath.new : GraphicsPath := GraphicsPath.mk none [] 0 0 0.5

/-- The drawing surface state the claims depend on: the command queue, the
cursor, and the optional clip rectangle read by onGetLocalBounds. -/
structure Graphics where
  mCommandQueue : List GraphicsCommand
  mPosX : ℝ
  mPosY : ℝ
  mClipRect : Option Rectangle

/-- A freshly constructed Graphics surface: empty queue, cursor at the
origin, no clip rectangle. -/
def Graphics.new : Graphics := Graphics.mk [] 0 0 none

/-- __pushCommand: append one command to the queue. -/
def Graphics.pushCommand (g : Graphics) (t : GraphicsCommandType)
    (data : List CmdArg) : Graphics :=
  { g with mCommandQueue := g.mCommandQueue ++ [GraphicsCommand.mk t data] }

/-- lineStyle: a non-positive width is a silent no-op, otherwise a
LINE_STYLE command is appended. -/
def Graphics.lineStyle (g : Graphics) (lineWidth color alpha : ℝ)
    (caps joints : String) (miterLimit : ℝ) : Graphics :=
  if lineWidth ≤ 0 then g
  else g.pushCommand .LINE_STYLE
    [.num lineWidth, .num color, .num alpha, .str caps, .str joints, .num miterLimit]

/-- fillStyle: appends a FILL_STYLE command. -/
def Graphics.fillStyle (g : Graphics) (color alpha : ℝ) : Graphics :=
  g.pushCommand .FILL_STYLE [.num color, .num alpha]

/-- moveTo: update the cursor and append a MOVE_TO command. -/
def Graphics.moveTo (g : Graphics) (x y : ℝ) : Graphics :=
  let g := { g with mPosX := x, mPosY := y }
  g.pushCommand .MOVE_TO [.num x, .num y]

/-- lineTo: update the cursor, append LINE_TO, then append a BOUNDS command
reading this.mPosX / this.mPosY, which at that point already hold the new
x and y. -/
def Graphics.lineTo (g : Graphics) (x y : ℝ) : Graphics :=
  let g := { g with mPosX := x, mPosY := y }
  let g := g.pushCommand .LINE_TO [.num x, .num y]
  g.pushCommand .BOUNDS [.num g.mPosX, .num g.mPosY, .num x, .num y]

/-- arc: no-op when startAngle equals endAngle; full-turn branch when the
absolute angle difference is at least 2 pi (enclosing square, ARC with the
end angle rewritten to startAngle + 2 pi, then BOUNDS, then a MOVE_TO to
the circumference point at endAngle + pi/2); otherwise the cardinal
quadrant analysis.  In the source the cosines and sines are assigned only
under the guards (not left, or not right) and (not top, or not bottom);
here they are computed unconditionally, which changes nothing because the
un-assigned values are never read. -/
def Graphics.arc (g : Graphics) (x y radius startAngle endAngle : ℝ)
    (anticlockwise : Bool) : Graphics :=
  if startAngle = endAngle then g
  else if |startAngle - endAngle| ≥ MathEx.PI2 then
    let points : List ℝ := [x - radius, y - radius, x + radius, y + radius]
    let endPt := Circle.getCircumferencePoint x y radius (endAngle + Real.pi * 0.5)
    let endAngle2 := startAngle + MathEx.PI2
    let g := g.pushCommand .ARC
      [.num x, .num y, .num radius, .num startAngle, .num endAngle2, .bool anticlockwise]
    let g := g.pushCommand .BOUNDS (points.map CmdArg.num)
    g.pushCommand .MOVE_TO [.num endPt.1, .num endPt.2]
  else
    let start0 := jsMod startAngle MathEx.PI2 + (if startAngle < 0 then MathEx.PI2 else 0)
    let start := if anticlockwise then endAngle else start0
    let e0 := if anticlockwise then start0 else endAngle
    let e := normalizeSweepEnd start e0
    let startCos := Real.cos start * radius
    let endCos := Real.cos e * radius
    let startSin := Real.sin start * radius
    let endSin := Real.sin e * radius
    let minX := if (start ≤ Real.pi ∧ e ≥ Real.pi) ∨ e ≥ Real.pi * 3 then
        -radius else min startCos endCos
    let maxX := if start = 0 ∨ e ≥ MathEx.PI2 then
        radius else max startCos endCos
    let minY := if (start ≤ Real.pi * 1.5 ∧ e ≥ Real.pi * 1.5) ∨ e ≥ Real.pi * 3.5 then
        -radius else min startSin endSin
    let maxY := if (start ≤ Real.pi * 0.5 ∧ e ≥ Real.pi * 0.5) ∨ e ≥ Real.pi * 2.5 then
        radius else max startSin endSin
    let g := g.pushCommand .ARC
      [.num x, .num y, .num radius, .num startAngle, .num endAngle, .bool anticlockwise]
    g.pushCommand .BOUNDS
      [.num (minX + x), .num (minY + y), .num (maxX + x), .num (maxY + y)]

/-- circle: a full-turn ARC command followed by the enclosing-square BOUNDS
command. -/
def Graphics.circle (g : Graphics) (x y radius : ℝ) : Graphics :=
  let g := g.pushCommand .ARC [.num x, .num y, .num radius, .num 0, .num MathEx.PI2]
  g.pushCommand .BOUNDS
    [.num (x - radius), .num (y - radius), .num (x + radius), .num (y + radius)]

/-- rect: a RECT command followed by the BOUNDS command for
(x, y, x + width, y + height). -/
def Graphics.rect (g : Graphics) (x y width height : ℝ) : Graphics :=
  let g := g.pushCommand .RECT [.num x, .num y, .num width, .num height]
  g.pushCommand .BOUNDS [.num x, .num y, .num (x + width), .num (y + height)]

/-- __bezierDot: the cubic Bernstein form evaluated at parameter x. -/
def bezierDot (p0 p1 p2 p3 x : ℝ) : ℝ :=
  let y := 1 - x
  p0 * y * y * y + 3 * p1 * x * y * y + 3 * p2 * x * x * y + p3 * x * x * x

/-- __bezierRange: per-axis min and max of a cubic segment.  The isFinite
check on each quadratic root is false in JS exactly when the leading
coefficient a is zero (the root is then an infinity or NaN), so it is
modelled as a test on a; a non-finite root is replaced by 0.5. -/
def bezierRange (p0 p1 p2 p3 : ℝ) : ℝ × ℝ :=
  let a := (p2 - 2 * p1 + p0) - (p3 - 2 * p2 + p1)
  let b := 2 * (p1 - p0) - 2 * (p2 - p1)
  let c := p0 - p1
  let discriminant := b * b - 4 * a * c
  let min0 := min p0 p3
  let max0 := max p0 p3
  if discriminant ≥ 0 then
    let discRoot := Real.sqrt discriminant
    let inv2a := 1 / (a * 2)
    let x1 := if a = 0 then 0.5 else (-b + discRoot) * inv2a
    let x2 := if a = 0 then 0.5 else (-b - discRoot) * inv2a
    let s1 := if 0 < x1 ∧ x1 < 1 then
        (min (bezierDot p0 p1 p2 p3 x1) min0, max (bezierDot p0 p1 p2 p3 x1) max0)
      else (min0, max0)
    if 0 < x2 ∧ x2 < 1 then
      (min (bezierDot p0 p1 p2 p3 x2) s1.1, max (bezierDot p0 p1 p2 p3 x2) s1.2)
    else s1
  else (min0, max0)

/-- bezierCurveTo: compute the per-axis ranges from the current cursor,
move the cursor to (x, y), append BEZIER_CURVE_TO, then append the BOUNDS
command (minX, minY, maxX, maxY). -/
def Graphics.bezierCurveTo (g : Graphics) (cp1x cp1y cp2x cp2y x y : ℝ) : Graphics :=
  let rangeX := bezierRange g.mPosX cp1x cp2x x
  let rangeY := bezierRange g.mPosY cp1y cp2y y
  let g := { g with mPosX := x, mPosY := y }
  let g := g.pushCommand .BEZIER_CURVE_TO
    [.num cp1x, .num cp1y, .num cp2x, .num cp2y, .num x, .num y]
  g.pushCommand .BOUNDS [.num rangeX.1, .num rangeY.1, .num rangeX.2, .num rangeY.2]

/-- beginPath: append a BEGIN_PATH command. -/
def Graphics.beginPath (g : Graphics) : Graphics :=
  g.pushCommand .BEGIN_PATH []

/-- closePath: append a CLOSE_PATH command. -/
def Graphics.closePath (g : Graphics) : Graphics :=
  g.pushCommand .CLOSE_PATH []

/-- stroke: append a STROKE command. -/
def Graphics.stroke (g : Graphics) : Graphics :=
  g.pushCommand .STROKE []

/-- fill: append a FILL command. -/
def Graphics.fill (g : Graphics) : Graphics :=
  g.pushCommand .FILL []

/-- One step of the onGetLocalBounds switch: the running rectangle paired
with the current GraphicsPath accumulator, transformed by one command. -/
def boundsStep (acc : Rectangle × GraphicsPath) (cmd : GraphicsCommand) :
    Rectangle × GraphicsPath :=
  let bounds := acc.1
  let path := acc.2
  match cmd.type with
  | .BEGIN_PATH =>
    (match path.bounds with
     | some pb => bounds.union pb
     | none => bounds,
     GraphicsPath.new)
  | .BOUNDS =>
    (bounds, { path with points := path.points ++ cmd.data.map CmdArg.toNum })
  | .LINE_STYLE =>
    let path := { path with lastLineWidth := cmd.getNumber 0 }
    (bounds,
     if cmd.getString 4 = JointStyle.MITER then { path with lineMult := 1 } else path)
  | .FILL =>
    let tmpBounds := Rectangle.fromPointsXY path.points
    (bounds,
     { path with bounds := some (match path.bounds with
         | some b => b.union tmpBounds
         | none => tmpBounds) })
  | .STROKE =>
    let mlw := if path.lastLineWidth > path.maxLineWidth then path.lastLineWidth
      else path.maxLineWidth
    let mlw := if mlw = 0 then 1 else mlw
    let mlw := mlw * path.lineMult
    let tmpBounds := Rectangle.fromPointsXY path.points
    let tmpBounds := if path.points.length > 2 then tmpBounds.inflate mlw mlw
      else tmpBounds
    (bounds,
     { path with
        maxLineWidth := mlw,
        bounds := some (match path.bounds with
          | some b => b.union tmpBounds
          | none => tmpBounds) })
  | _ => acc

/-- The loop body of onGetLocalBounds, factored out over the command
queue: fold boundsStep over the queue starting from the zero rectangle and
a fresh accumulator, then union the last accumulator bounds, when present,
into the running rectangle. -/
def queueBounds (q : List GraphicsCommand) : Rectangle :=
  let st := q.foldl boundsStep (Rectangle.mk 0 0 0 0, GraphicsPath.new)
  match st.2.bounds with
  | some pb => st.1.union pb
  | none => st.1

/-- onGetLocalBounds: if a clip rectangle is set it is returned verbatim
and the pass is skipped; otherwise the single forward pass over the
command queue produces the local bounds. -/
def Graphics.onGetLocalBounds (g : Graphics) : Rectangle :=
  match g.mClipRect with
  | some clip => clip
  | none => queueBounds g.mCommandQueue

/-- getArg of fromGCQ, string case: parse the numeric value of the token
after stripping two characters when it begins with a dollar sign, one
otherwise.  parseNum stands for the JS unary plus string-to-number
coercion, a host primitive. -/
def getArgStr (parseNum : String → ℝ) (ci : String) : ℝ :=
  parseNum (ci.drop (if ci.startsWith "$" then 2 else 1))

/-- getArg of fromGCQ, numeric case: shift the next token and parse it;
shifting an empty stream yields undefined in JS, whose numeric coercion is
represented by the parameter undefNum. -/
def shiftNum (parseNum : String → ℝ) (undefNum : ℝ) :
    List String → ℝ × List String
  | [] => (undefNum, [])
  | t :: rest => (parseNum t, rest)

/-- One iteration of the fromGCQ shape loop: beginPath, the zero-width
lineStyle, the opaque white fillStyle, then the branch on the shifted
command code, then fill; returns the new surface and the remaining
tokens. -/
def Graphics.decodeStep (parseNum : String → ℝ) (undefNum : ℝ) (g : Graphics)
    (c : String) (cmds : List String) : Graphics × List String :=
  let g := g.beginPath
  let g := g.lineStyle 0 0xffffff 1 CapsStyle.ROUND JointStyle.ROUND 3
  let g := g.fillStyle 0xffffff 1
  if c.startsWith "$s" then
    (g.fill, cmds)
  else if c.startsWith "$r" then
    let a0 := getArgStr parseNum c
    let s1 := shiftNum parseNum undefNum cmds
    let s2 := shiftNum parseNum undefNum s1.2
    let s3 := shiftNum parseNum undefNum s2.2
    ((g.rect a0 s1.1 s2.1 s3.1).fill, s3.2)
  else if c.startsWith "$c" then
    let a0 := getArgStr parseNum c
    let s1 := shiftNum parseNum undefNum cmds
    let s2 := shiftNum parseNum undefNum s1.2
    ((g.circle a0 s1.1 s2.1).fill, s2.2)
  else
    (g.fill, cmds)

/-- The while loop of fromGCQ over one shape token stream, with explicit
fuel: every iteration shifts at least the command-code token, so fuel equal
to the initial stream length makes the fueled loop coincide with the JS
loop that runs until the stream is empty. -/
def Graphics.decodeLoop (parseNum : String → ℝ) (undefNum : ℝ) :
    ℕ → Graphics → List String → Graphics
  | 0, g, _ => g
  | _ + 1, g, [] => g
  | fuel + 1, g, c :: cmds =>
    let s := g.decodeStep parseNum undefNum c cmds
    Graphics.decodeLoop parseNum undefNum fuel s.1 s.2

/-- fromGCQ after JSON parsing (JSON.parse is a host primitive): decode
each shape token stream in order on a fresh surface. -/
def Graphics.fromGCQ (parseNum : String → ℝ) (undefNum : ℝ)
    (shapes : List (List String)) : Graphics :=
  shapes.foldl
    (fun g toks => Graphics.decodeLoop parseNum undefNum toks.length g toks)
    Graphics.new

/-- Scenario B of the spec: lineStyle(4, 0, 1, caps round, joints miter),
moveTo(0,0), lineTo(10,0), stroke, on a fresh surface. -/
def scenarioB : Graphics :=
  ((((Graphics.new.lineStyle 4 0 1 CapsStyle.ROUND JointStyle.MITER 3).moveTo
      0 0).lineTo 10 0).stroke)

/-! Theorems -/

/-- Helper: pushCommand does not move the cursor. -/
theorem pushCommand_mPosX (g : Graphics) (t : GraphicsCommandType)
    (d : List CmdArg) : (g.pushCommand t d).mPosX = g.mPosX := rfl

/-- Helper: pushCommand does not move the cursor. -/
theorem pushCommand_mPosY (g : Graphics) (t : GraphicsCommandType)
    (d : List CmdArg) : (g.pushCommand t d).mPosY = g.mPosY := rfl

/-- Helper: arc leaves the clip rectangle alone in every branch. -/
theorem arc_mClipRect (g : Graphics) (x y r sA eA : ℝ) (ac : Bool) :
    (g.arc x y r sA eA ac).mClipRect = g.mClipRect := by
  unfold Graphics.arc
  split_ifs <;> simp [Graphics.pushCommand]

/-- Helper: without a clip rectangle, onGetLocalBounds is the queue pass. -/
theorem onGetLocalBounds_no_clip (g : Graphics) (h : g.mClipRect = none) :
    g.onGetLocalBounds = queueBounds g.mCommandQueue := by
  unfold Graphics.onGetLocalBounds
  rw [h]

/-- Claim C2, code evaluation at the failing input: with the cursor at
(0, 0), lineTo(10, 0) appends a BOUNDS command carrying (10, 0, 10, 0) and
not (0, 0, 10, 0), because the cursor fields are overwritten before the
push reads them. -/
theorem lineTo_bounds_records_new_point_twice :
    ((Graphics.new.moveTo 0 0).lineTo 10 0).mCommandQueue =
      [GraphicsCommand.mk .MOVE_TO [.num 0, .num 0],
       GraphicsCommand.mk .LINE_TO [.num 10, .num 0],
       GraphicsCommand.mk .BOUNDS [.num 10, .num 0, .num 10, .num 0]] := by
  simp [Graphics.new, Graphics.moveTo, Graphics.lineTo, Graphics.pushCommand]

/-- Claim C10: arc never changes the cursor, in either branch, even though
the full-turn branch appends a MOVE_TO command; consequently a subsequent
bezierCurveTo computes its ranges from the cursor position that preceded
the arc call. -/
theorem arc_preserves_cursor (g : Graphics) (x y r sA eA : ℝ) (ac : Bool)
    (cp1x cp1y cp2x cp2y px py : ℝ) :
    (g.arc x y r sA eA ac).mPosX = g.mPosX ∧
    (g.arc x y r sA eA ac).mPosY = g.mPosY ∧
    ((g.arc x y r sA eA ac).bezierCurveTo cp1x cp1y cp2x cp2y px py).mCommandQueue =
      (g.arc x y r sA eA ac).mCommandQueue ++
        [GraphicsCommand.mk .BEZIER_CURVE_TO
          [.num cp1x, .num cp1y, .num cp2x, .num cp2y, .num px, .num py],
         GraphicsCommand.mk .BOUNDS
          [.num (bezierRange g.mPosX cp1x cp2x px).1,
           .num (bezierRange g.mPosY cp1y cp2y py).1,
           .num (bezierRange g.mPosX cp1x cp2x px).2,
           .num (bezierRange g.mPosY cp1y cp2y py).2]] := by
  have hx : (g.arc x y r sA eA ac).mPosX = g.mPosX := by
    unfold Graphics.arc
    split_ifs <;> simp [Graphics.pushCommand]
  have hy : (g.arc x y r sA eA ac).mPosY = g.mPosY := by
    unfold Graphics.arc
    split_ifs <;> simp [Graphics.pushCommand]
  refine ⟨hx, hy, ?_⟩
  simp [Graphics.bezierCurveTo, Graphics.pushCommand, hx, hy]

/-- Claim C6, counterexample: a zero-radius arc with distinct angles is not
a no-op on the command log; arc(0, 0, 0, 0, 1, false) appends two commands
on a fresh surface. -/
theorem zero_radius_arc_appends_commands :
    (Graphics.new.arc 0 0 0 0 1 false).mCommandQueue.length = 2 := by
  have habs : |(0:ℝ) - 1| = 1 := by
    rw [zero_sub, abs_neg, abs_one]
  have hd : ¬ (|(0:ℝ) - 1| ≥ MathEx.PI2) := by
    rw [habs, MathEx.PI2]
    nlinarith [Real.pi_gt_three]
  unfold Graphics.arc
  rw [if_neg (by norm_num : ¬ (0:ℝ) = 1), if_neg hd]
  simp [Graphics.pushCommand, Graphics.new]

/-- Claim C6, amended part: an arc call with equal start and end angles is
a complete no-op, returning the surface unchanged (no commands appended,
cursor untouched, never an error). -/
theorem arc_equal_angles_noop (g : Graphics) (x y r sA eA : ℝ) (ac : Bool)
    (h : sA = eA) : g.arc x y r sA eA ac = g := by
  unfold Graphics.arc
  rw [if_pos h]

/-- Witness for arc_equal_angles_noop at a concrete input. -/
theorem arc_equal_angles_noop_witness :
    Graphics.new.arc 0 0 1 2 2 false = Graphics.new :=
  arc_equal_angles_noop Graphics.new 0 0 1 2 2 false rfl

/-- Claim C8, counterexample: on a fresh surface, arc(0, 0, 1, 0, 7, false)
produces the command types ARC, BOUNDS, MOVE_TO in that order — the ARC
command comes before the BOUNDS command, not after it. -/
theorem arc_emits_arc_before_bounds :
    ((Graphics.new.arc 0 0 1 0 7 false).mCommandQueue.map GraphicsCommand.type) =
      [.ARC, .BOUNDS, .MOVE_TO] := by
  have habs : |(0:ℝ) - 7| = 7 := by
    rw [zero_sub, abs_neg]
    exact abs_of_nonneg (by norm_num)
  have hd : |(0:ℝ) - 7| ≥ MathEx.PI2 := by
    rw [habs, MathEx.PI2]
    nlinarith [Real.pi_lt_d2]
  unfold Graphics.arc
  rw [if_neg (by norm_num : ¬ (0:ℝ) = 7), if_pos hd]
  simp [Graphics.pushCommand, Graphics.new]

/-- Claim C8, amended: for every non-degenerate arc call the ARC command is
appended first and the precomputed BOUNDS command immediately after it; in
the full-turn branch a single MOVE_TO command follows, otherwise nothing
does. -/
theorem arc_appends_arc_then_bounds (g : Graphics) (x y r sA eA : ℝ)
    (ac : Bool) (h : sA ≠ eA) :
    ∃ tail,
      (g.arc x y r sA eA ac).mCommandQueue.map GraphicsCommand.type =
        (g.mCommandQueue.map GraphicsCommand.type) ++
          GraphicsCommandType.ARC :: GraphicsCommandType.BOUNDS :: tail ∧
      (tail = [] ∨ tail = [GraphicsCommandType.MOVE_TO]) := by
  unfold Graphics.arc
  rw [if_neg h]
  by_cases hd : |sA - eA| ≥ MathEx.PI2
  · rw [if_pos hd]
    exact ⟨[GraphicsCommandType.MOVE_TO],
      by simp [Graphics.pushCommand], Or.inr rfl⟩
  · rw [if_neg hd]
    exact ⟨[], by simp [Graphics.pushCommand], Or.inl rfl⟩

/-- Witness for arc_appends_arc_then_bounds at a concrete input. -/
theorem arc_appends_arc_then_bounds_witness :
    ∃ tail,
      (Graphics.new.arc 0 0 1 0 7 false).mCommandQueue.map GraphicsCommand.type =
        (Graphics.new.mCommandQueue.map GraphicsCommand.type) ++
          GraphicsCommandType.ARC :: GraphicsCommandType.BOUNDS :: tail ∧
      (tail = [] ∨ tail = [GraphicsCommandType.MOVE_TO]) :=
  arc_appends_arc_then_bounds Graphics.new 0 0 1 0 7 false (by norm_num)

/-- Claim C5, counterexample: replaying a log whose LINE_STYLE commands are
first miter- then round-jointed leaves the accumulator line multiplier at
1, not at 0.5 as the claim states for the round-jointed second command. -/
theorem miter_then_round_lineMult_ne_half :
    (((Graphics.new.lineStyle 1 0 1 CapsStyle.ROUND JointStyle.MITER
          3).lineStyle 1 0 1 CapsStyle.ROUND JointStyle.ROUND 3).mCommandQueue.foldl
        boundsStep (Rectangle.mk 0 0 0 0, GraphicsPath.new)).2.lineMult ≠ 0.5 := by
  have h1 : ¬ ((1:ℝ) ≤ 0) := by norm_num
  simp only [Graphics.lineStyle, if_neg h1, Graphics.pushCommand, Graphics.new,
    JointStyle.MITER, JointStyle.ROUND, CapsStyle.ROUND]
  simp [boundsStep, GraphicsCommand.getString, GraphicsCommand.getNumber,
    JointStyle.MITER, GraphicsPath.new]
  norm_num

/-- Claim C5, amended: processing a LINE_STYLE command sets the line
multiplier to 1 when the joint argument is miter and otherwise leaves it at
its previous value (0.5 only if nothing set it higher earlier in the same
path). -/
theorem boundsStep_lineStyle_lineMult (b : Rectangle) (p : GraphicsPath)
    (cmd : GraphicsCommand) (h : cmd.type = .LINE_STYLE) :
    (boundsStep (b, p) cmd).2.lineMult =
      if cmd.getString 4 = JointStyle.MITER then 1 else p.lineMult := by
  obtain ⟨t, data⟩ := cmd
  simp only [GraphicsCommand.mk.injEq] at h
  subst h
  simp only [boundsStep]
  split_ifs <;> simp

/-- Witness for boundsStep_lineStyle_lineMult at a concrete command. -/
theorem boundsStep_lineStyle_lineMult_witness :
    (boundsStep (Rectangle.mk 0 0 0 0, GraphicsPath.new)
        (GraphicsCommand.mk .LINE_STYLE
          [.num 2, .num 0, .num 1, .str "round", .str "miter", .num 3])).2.lineMult =
      if (GraphicsCommand.mk .LINE_STYLE
          [.num 2, .num 0, .num 1, .str "round", .str "miter",
            .num 3]).getString 4 = JointStyle.MITER then 1
      else GraphicsPath.new.lineMult :=
  boundsStep_lineStyle_lineMult (Rectangle.mk 0 0 0 0) GraphicsPath.new
    (GraphicsCommand.mk .LINE_STYLE
      [.num 2, .num 0, .num 1, .str "round", .str "miter", .num 3]) rfl

/-- Claim C3: rect(x, y, w, h) followed by fill() on a fresh surface makes
the bounds pass return exactly the rectangle with origin (x, y), width w,
height h, for all w, h at least 0; the union with the initially empty
running rectangle is the identity. -/
theorem rect_fill_localBounds (x y w h : ℝ) (hw : 0 ≤ w) (hh : 0 ≤ h) :
    ((Graphics.new.rect x y w h).fill).onGetLocalBounds = Rectangle.mk x y w h := by
  have hclip : ((Graphics.new.rect x y w h).fill).mClipRect = none := by
    simp [Graphics.new, Graphics.rect, Graphics.fill, Graphics.pushCommand]
  rw [onGetLocalBounds_no_clip _ hclip]
  have hq : ((Graphics.new.rect x y w h).fill).mCommandQueue =
      [GraphicsCommand.mk .RECT [.num x, .num y, .num w, .num h],
       GraphicsCommand.mk .BOUNDS [.num x, .num y, .num (x + w), .num (y + h)],
       GraphicsCommand.mk .FILL []] := by
    simp [Graphics.new, Graphics.rect, Graphics.fill, Graphics.pushCommand]
  rw [hq]
  have h1 : min x (x + w) = x := min_eq_left (by linarith)
  have h2 : max x (x + w) = x + w := max_eq_right (by linarith)
  have h3 : min y (y + h) = y := min_eq_left (by linarith)
  have h4 : max y (y + h) = y + h := max_eq_right (by linarith)
  simp [queueBounds, boundsStep, GraphicsPath.new, CmdArg.toNum,
    Rectangle.fromPointsXY, xsOfPairs, ysOfPairs, Rectangle.union, h1, h2, h3, h4]

/-- Witness for rect_fill_localBounds at a concrete input. -/
theorem rect_fill_localBounds_witness :
    ((Graphics.new.rect 1 2 3 4).fill).onGetLocalBounds = Rectangle.mk 1 2 3 4 :=
  rect_fill_localBounds 1 2 3 4 (by norm_num) (by norm_num)

/-- Claim C4: when the absolute difference of the angles is at least 2 pi,
the bounds pass result of arc-then-fill coincides with that of
circle-then-fill at the same center and radius, for either sweep
direction, and (for nonnegative radius) equals the enclosing square from
(x - r, y - r) with side 2 r. -/
theorem arc_full_sweep_bounds_eq_circle (x y r sA eA : ℝ) (ac : Bool)
    (h : |sA - eA| ≥ 2 * Real.pi) :
    ((Graphics.new.arc x y r sA eA ac).fill).onGetLocalBounds =
      ((Graphics.new.circle x y r).fill).onGetLocalBounds ∧
    (0 ≤ r →
      ((Graphics.new.arc x y r sA eA ac).fill).onGetLocalBounds =
        Rectangle.mk (x - r) (y - r) (2 * r) (2 * r)) := by
  have hne : sA ≠ eA := by
    intro he
    rw [he, sub_self, abs_zero] at h
    nlinarith [Real.pi_pos]
  have hd : |sA - eA| ≥ MathEx.PI2 := by
    rw [MathEx.PI2]
    exact h
  have hclipa : ((Graphics.new.arc x y r sA eA ac).fill).mClipRect = none := by
    simp [Graphics.fill, Graphics.pushCommand, arc_mClipRect, Graphics.new]
  have hclipc : ((Graphics.new.circle x y r).fill).mClipRect = none := by
    simp [Graphics.circle, Graphics.fill, Graphics.pushCommand, Graphics.new]
  have hqa : ((Graphics.new.arc x y r sA eA ac).fill).mCommandQueue =
      [GraphicsCommand.mk .ARC
        [.num x, .num y, .num r, .num sA, .num (sA + MathEx.PI2), .bool ac],
       GraphicsCommand.mk .BOUNDS
        [.num (x - r), .num (y - r), .num (x + r), .num (y + r)],
       GraphicsCommand.mk .MOVE_TO
        [.num (x + r * Real.cos (eA + Real.pi * 0.5)),
         .num (y + r * Real.sin (eA + Real.pi * 0.5))],
       GraphicsCommand.mk .FILL []] := by
    unfold Graphics.arc
    rw [if_neg hne, if_pos hd]
    simp [Graphics.pushCommand, Graphics.fill, Graphics.new,
      Circle.getCircumferencePoint]
  have hqc : ((Graphics.new.circle x y r).fill).mCommandQueue =
      [GraphicsCommand.mk .ARC [.num x, .num y, .num r, .num 0, .num MathEx.PI2],
       GraphicsCommand.mk .BOUNDS
        [.num (x - r), .num (y - r), .num (x + r), .num (y + r)],
       GraphicsCommand.mk .FILL []] := by
    simp [Graphics.circle, Graphics.fill, Graphics.pushCommand, Graphics.new]
  rw [onGetLocalBounds_no_clip _ hclipa, onGetLocalBounds_no_clip _ hclipc, hqa, hqc]
  constructor
  · simp [queueBounds, boundsStep, GraphicsPath.new, CmdArg.toNum]
  · intro hr
    have h1 : min (x - r) (x + r) = x - r := min_eq_left (by linarith)
    have h2 : max (x - r) (x + r) = x + r := max_eq_right (by linarith)
    have h3 : min (y - r) (y + r) = y - r := min_eq_left (by linarith)
    have h4 : max (y - r) (y + r) = y + r := max_eq_right (by linarith)
    simp [queueBounds, boundsStep, GraphicsPath.new, CmdArg.toNum,
      Rectangle.fromPointsXY, xsOfPairs, ysOfPairs, Rectangle.union,
      h1, h2, h3, h4]
    ring

/-- Helper: the cubic Bernstein form at a parameter in the unit interval
is at most the larger endpoint value when both control values are. -/
theorem bezierDot_le_max (p0 p1 p2 p3 x : ℝ) (hx0 : 0 ≤ x) (hx1 : x ≤ 1)
    (h1 : p1 ≤ max p0 p3) (h2 : p2 ≤ max p0 p3) :
    bezierDot p0 p1 p2 p3 x ≤ max p0 p3 := by
  have hy0 : (0:ℝ) ≤ 1 - x := by linarith
  have e0 : p0 ≤ max p0 p3 := le_max_left _ _
  have e3 : p3 ≤ max p0 p3 := le_max_right _ _
  simp only [bezierDot]
  nlinarith [mul_nonneg (sub_nonneg.2 e0) (mul_nonneg (mul_nonneg hy0 hy0) hy0),
    mul_nonneg (sub_nonneg.2 h1) (mul_nonneg hx0 (mul_nonneg hy0 hy0)),
    mul_nonneg (sub_nonneg.2 h2) (mul_nonneg (mul_nonneg hx0 hx0) hy0),
    mul_nonneg (sub_nonneg.2 e3) (mul_nonneg (mul_nonneg hx0 hx0) hx0)]

/-- Helper: the cubic Bernstein form at a parameter in the unit interval
is at least the smaller endpoint value when both control values are. -/
theorem min_le_bezierDot (p0 p1 p2 p3 x : ℝ) (hx0 : 0 ≤ x) (hx1 : x ≤ 1)
    (h1 : min p0 p3 ≤ p1) (h2 : min p0 p3 ≤ p2) :
    min p0 p3 ≤ bezierDot p0 p1 p2 p3 x := by
  have hy0 : (0:ℝ) ≤ 1 - x := by linarith
  have e0 : min p0 p3 ≤ p0 := min_le_left _ _
  have e3 : min p0 p3 ≤ p3 := min_le_right _ _
  simp only [bezierDot]
  nlinarith [mul_nonneg (sub_nonneg.2 e0) (mul_nonneg (mul_nonneg hy0 hy0) hy0),
    mul_nonneg (sub_nonneg.2 h1) (mul_nonneg hx0 (mul_nonneg hy0 hy0)),
    mul_nonneg (sub_nonneg.2 h2) (mul_nonneg (mul_nonneg hx0 hx0) hy0),
    mul_nonneg (sub_nonneg.2 e3) (mul_nonneg (mul_nonneg hx0 hx0) hx0)]

/-- Helper: a point p0 + t (p3 - p0) of the segment, t in the unit
interval, lies between min and max of the endpoints. -/
theorem lerp_between (p0 p3 t : ℝ) (h0 : 0 ≤ t) (h1 : t ≤ 1) :
    min p0 p3 ≤ p0 + t * (p3 - p0) ∧ p0 + t * (p3 - p0) ≤ max p0 p3 := by
  rcases le_total p0 p3 with hc | hc
  · rw [min_eq_left hc, max_eq_right hc]
    constructor <;> nlinarith
  · rw [min_eq_right hc, max_eq_left hc]
    constructor <;> nlinarith

/-- Helper: when both 1-D control values lie between the endpoint values,
bezierRange returns exactly (min of endpoints, max of endpoints): the
interior candidates folded in never escape the endpoint interval. -/
theorem bezierRange_controls_between (p0 p1 p2 p3 : ℝ)
    (h1l : min p0 p3 ≤ p1) (h1u : p1 ≤ max p0 p3)
    (h2l : min p0 p3 ≤ p2) (h2u : p2 ≤ max p0 p3) :
    bezierRange p0 p1 p2 p3 = (min p0 p3, max p0 p3) := by
  have hmem : ∀ t : ℝ, 0 ≤ t → t ≤ 1 →
      min p0 p3 ≤ bezierDot p0 p1 p2 p3 t ∧
        bezierDot p0 p1 p2 p3 t ≤ max p0 p3 := fun t ht0 ht1 =>
    ⟨min_le_bezierDot p0 p1 p2 p3 t ht0 ht1 h1l h2l,
     bezierDot_le_max p0 p1 p2 p3 t ht0 ht1 h1u h2u⟩
  have key : ∀ x2 x1 : ℝ,
      (if 0 < x2 ∧ x2 < 1 then
        (min (bezierDot p0 p1 p2 p3 x2)
          (if 0 < x1 ∧ x1 < 1 then
            (min (bezierDot p0 p1 p2 p3 x1) (min p0 p3),
             max (bezierDot p0 p1 p2 p3 x1) (max p0 p3))
          else (min p0 p3, max p0 p3)).1,
         max (bezierDot p0 p1 p2 p3 x2)
          (if 0 < x1 ∧ x1 < 1 then
            (min (bezierDot p0 p1 p2 p3 x1) (min p0 p3),
             max (bezierDot p0 p1 p2 p3 x1) (max p0 p3))
          else (min p0 p3, max p0 p3)).2)
      else
        (if 0 < x1 ∧ x1 < 1 then
          (min (bezierDot p0 p1 p2 p3 x1) (min p0 p3),
           max (bezierDot p0 p1 p2 p3 x1) (max p0 p3))
        else (min p0 p3, max p0 p3))) = (min p0 p3, max p0 p3) := by
    intro x2 x1
    have hs1 : (if 0 < x1 ∧ x1 < 1 then
        (min (bezierDot p0 p1 p2 p3 x1) (min p0 p3),
         max (bezierDot p0 p1 p2 p3 x1) (max p0 p3))
      else (min p0 p3, max p0 p3)) = (min p0 p3, max p0 p3) := by
      split_ifs with hc
      · obtain ⟨hl, hu⟩ := hmem x1 hc.1.le hc.2.le
        rw [min_eq_right hl, max_eq_right hu]
      · rfl
    rw [hs1]
    split_ifs with hc
    · obtain ⟨hl, hu⟩ := hmem x2 hc.1.le hc.2.le
      simp [min_eq_right hl, max_eq_right hu]
    · rfl
  simp only [bezierRange]
  rw [key]
  exact ite_self _

/-- Claim C7: when both control points lie on the segment between the
cursor and the target point, bezierCurveTo appends a BOUNDS command that
spans exactly the endpoint box: min and max of the endpoint coordinates on
each axis, with no interior extremum enlarging it. -/
theorem bezier_collinear_controls_bounds (g : Graphics) (x3 y3 t1 t2 : ℝ)
    (ht1l : 0 ≤ t1) (ht1u : t1 ≤ 1) (ht2l : 0 ≤ t2) (ht2u : t2 ≤ 1) :
    (g.bezierCurveTo (g.mPosX + t1 * (x3 - g.mPosX)) (g.mPosY + t1 * (y3 - g.mPosY))
        (g.mPosX + t2 * (x3 - g.mPosX)) (g.mPosY + t2 * (y3 - g.mPosY))
        x3 y3).mCommandQueue =
      g.mCommandQueue ++
        [GraphicsCommand.mk .BEZIER_CURVE_TO
          [.num (g.mPosX + t1 * (x3 - g.mPosX)), .num (g.mPosY + t1 * (y3 - g.mPosY)),
           .num (g.mPosX + t2 * (x3 - g.mPosX)), .num (g.mPosY + t2 * (y3 - g.mPosY)),
           .num x3, .num y3],
         GraphicsCommand.mk .BOUNDS
          [.num (min g.mPosX x3), .num (min g.mPosY y3),
           .num (max g.mPosX x3), .num (max g.mPosY y3)]] := by
  have hrx : bezierRange g.mPosX (g.mPosX + t1 * (x3 - g.mPosX))
      (g.mPosX + t2 * (x3 - g.mPosX)) x3 = (min g.mPosX x3, max g.mPosX x3) :=
    bezierRange_controls_between _ _ _ _
      (lerp_between g.mPosX x3 t1 ht1l ht1u).1 (lerp_between g.mPosX x3 t1 ht1l ht1u).2
      (lerp_between g.mPosX x3 t2 ht2l ht2u).1 (lerp_between g.mPosX x3 t2 ht2l ht2u).2
  have hry : bezierRange g.mPosY (g.mPosY + t1 * (y3 - g.mPosY))
      (g.mPosY + t2 * (y3 - g.mPosY)) y3 = (min g.mPosY y3, max g.mPosY y3) :=
    bezierRange_controls_between _ _ _ _
      (lerp_between g.mPosY y3 t1 ht1l ht1u).1 (lerp_between g.mPosY y3 t1 ht1l ht1u).2
      (lerp_between g.mPosY y3 t2 ht2l ht2u).1 (lerp_between g.mPosY y3 t2 ht2l ht2u).2
  simp [Graphics.bezierCurveTo, Graphics.pushCommand, hrx, hry]

/-- Witness for bezier_collinear_controls_bounds at a concrete input. -/
theorem bezier_collinear_controls_bounds_witness :
    (Graphics.new.bezierCurveTo
        (Graphics.new.mPosX + (1/4) * (4 - Graphics.new.mPosX))
        (Graphics.new.mPosY + (1/4) * (3 - Graphics.new.mPosY))
        (Graphics.new.mPosX + (1/2) * (4 - Graphics.new.mPosX))
        (Graphics.new.mPosY + (1/2) * (3 - Graphics.new.mPosY))
        4 3).mCommandQueue =
      Graphics.new.mCommandQueue ++
        [GraphicsCommand.mk .BEZIER_CURVE_TO
          [.num (Graphics.new.mPosX + (1/4) * (4 - Graphics.new.mPosX)),
           .num (Graphics.new.mPosY + (1/4) * (3 - Graphics.new.mPosY)),
           .num (Graphics.new.mPosX + (1/2) * (4 - Graphics.new.mPosX)),
           .num (Graphics.new.mPosY + (1/2) * (3 - Graphics.new.mPosY)),
           .num 4, .num 3],
         GraphicsCommand.mk .BOUNDS
          [.num (min Graphics.new.mPosX 4), .num (min Graphics.new.mPosY 3),
           .num (max Graphics.new.mPosX 4), .num (max Graphics.new.mPosY 3)]] :=
  bezier_collinear_controls_bounds Graphics.new 4 3 (1/4) (1/2)
    (by norm_num) (by norm_num) (by norm_num) (by norm_num)

/-- Claim C9: every iteration of the fromGCQ shape loop appends a
BEGIN_PATH, then the opaque-white FILL_STYLE (the zero-width lineStyle
call appends nothing), then the commands of the recognized shape, and
always closes with an implicit FILL command, for every command-code token:
style, rect, circle, or unrecognized; the decoder is a total function, so
no input raises an error. -/
theorem decodeStep_always_fills (parseNum : String → ℝ) (undefNum : ℝ)
    (g : Graphics) (c : String) (cmds : List String) :
    ∃ mid, (Graphics.decodeStep parseNum undefNum g c cmds).1.mCommandQueue =
      g.mCommandQueue ++
        GraphicsCommand.mk .BEGIN_PATH [] ::
          GraphicsCommand.mk .FILL_STYLE [.num 0xffffff, .num 1] ::
            (mid ++ [GraphicsCommand.mk .FILL []]) ∧
      (mid.map GraphicsCommand.type = [] ∨
       mid.map GraphicsCommand.type = [.RECT, .BOUNDS] ∨
       mid.map GraphicsCommand.type = [.ARC, .BOUNDS]) := by
  have h0 : ((0:ℝ) ≤ 0) := le_refl 0
  unfold Graphics.decodeStep
  split_ifs with h1 h2 h3
  · exact ⟨[], by simp [Graphics.beginPath, Graphics.lineStyle, if_pos h0,
      Graphics.fillStyle, Graphics.fill, Graphics.pushCommand], Or.inl rfl⟩
  · refine ⟨[GraphicsCommand.mk .RECT
        [.num (getArgStr parseNum c),
         .num (shiftNum parseNum undefNum cmds).1,
         .num (shiftNum parseNum undefNum (shiftNum parseNum undefNum cmds).2).1,
         .num (shiftNum parseNum undefNum
            (shiftNum parseNum undefNum (shiftNum parseNum undefNum cmds).2).2).1],
      GraphicsCommand.mk .BOUNDS
        [.num (getArgStr parseNum c),
         .num (shiftNum parseNum undefNum cmds).1,
         .num (getArgStr parseNum c +
            (shiftNum parseNum undefNum (shiftNum parseNum undefNum cmds).2).1),
         .num ((shiftNum parseNum undefNum cmds).1 +
            (shiftNum parseNum undefNum
              (shiftNum parseNum undefNum (shiftNum parseNum undefNum cmds).2).2).1)]],
      ?_, Or.inr (Or.inl rfl)⟩
    simp [Graphics.beginPath, Graphics.lineStyle, if_pos h0, Graphics.fillStyle,
      Graphics.rect, Graphics.fill, Graphics.pushCommand]
  · refine ⟨[GraphicsCommand.mk .ARC
        [.num (getArgStr parseNum c),
         .num (shiftNum parseNum undefNum cmds).1,
         .num (shiftNum parseNum undefNum (shiftNum parseNum undefNum cmds).2).1,
         .num 0, .num MathEx.PI2],
      GraphicsCommand.mk .BOUNDS
        [.num (getArgStr parseNum c -
            (shiftNum parseNum undefNum (shiftNum parseNum undefNum cmds).2).1),
         .num ((shiftNum parseNum undefNum cmds).1 -
            (shiftNum parseNum undefNum (shiftNum parseNum undefNum cmds).2).1),
         .num (getArgStr parseNum c +
            (shiftNum parseNum undefNum (shiftNum parseNum undefNum cmds).2).1),
         .num ((shiftNum parseNum undefNum cmds).1 +
            (shiftNum parseNum undefNum (shiftNum parseNum undefNum cmds).2).1)]],
      ?_, Or.inr (Or.inr rfl)⟩
    simp [Graphics.beginPath, Graphics.lineStyle, if_pos h0, Graphics.fillStyle,
      Graphics.circle, Graphics.fill, Graphics.pushCommand]
  · exact ⟨[], by simp [Graphics.beginPath, Graphics.lineStyle, if_pos h0,
      Graphics.fillStyle, Graphics.fill, Graphics.pushCommand], Or.inl rfl⟩

/-- Claim C1, code evaluation at the failing input (Scenario B of the
spec): after lineStyle(4, 0, 1, caps round, joints miter), moveTo(0, 0),
lineTo(10, 0), stroke() on a fresh surface, the bounds pass returns
(6, -4, 8, 8), not the (-4, -4, 18, 8) stated by the claim, because the
raw point box computed from the BOUNDS command is (10, 0, 0, 0) rather
than (0, 0, 10, 0): lineTo loses the segment start point. -/
theorem scenarioB_localBounds :
    scenarioB.onGetLocalBounds = Rectangle.mk 6 (-4) 8 8 := by
  have h40 : ¬ ((4:ℝ) ≤ 0) := by norm_num
  have hq : scenarioB.mCommandQueue =
      [GraphicsCommand.mk .LINE_STYLE
        [.num 4, .num 0, .num 1, .str "round", .str "miter", .num 3],
       GraphicsCommand.mk .MOVE_TO [.num 0, .num 0],
       GraphicsCommand.mk .LINE_TO [.num 10, .num 0],
       GraphicsCommand.mk .BOUNDS [.num 10, .num 0, .num 10, .num 0],
       GraphicsCommand.mk .STROKE []] := by
    simp [scenarioB, Graphics.new, Graphics.lineStyle, if_neg h40, Graphics.moveTo,
      Graphics.lineTo, Graphics.stroke, Graphics.pushCommand, JointStyle.MITER,
      CapsStyle.ROUND]
  have hclip : scenarioB.mClipRect = none := by
    simp [scenarioB, Graphics.new, Graphics.lineStyle, if_neg h40, Graphics.moveTo,
      Graphics.lineTo, Graphics.stroke, Graphics.pushCommand]
  rw [onGetLocalBounds_no_clip _ hclip, hq]
  norm_num [queueBounds, boundsStep, GraphicsPath.new, GraphicsCommand.getNumber,
    GraphicsCommand.getString, JointStyle.MITER, CmdArg.toNum,
    Rectangle.fromPointsXY, xsOfPairs, ysOfPairs, Rectangle.inflate,
    Rectangle.union]

/-- Witness for arc_full_sweep_bounds_eq_circle at a concrete input. -/
theorem arc_full_sweep_bounds_eq_circle_witness :
    ((Graphics.new.arc 0 0 1 0 7 false).fill).onGetLocalBounds =
      ((Graphics.new.circle 0 0 1).fill).onGetLocalBounds ∧
    ((0:ℝ) ≤ 1 →
      ((Graphics.new.arc 0 0 1 0 7 false).fill).onGetLocalBounds =
        Rectangle.mk (0 - 1) (0 - 1) (2 * 1) (2 * 1)) :=
  arc_full_sweep_bounds_eq_circle 0 0 1 0 7 false (by
    rw [show |(0:ℝ) - 7| = 7 from by rw [zero_sub, abs_neg]; exact abs_of_nonneg (by norm_num)]
    nlinarith [Real.pi_lt_d2])

end
